import Mathlib

/-!
Shallow embedding of `src/main/native/unix_jni.cc` (Bazel's UNIX JNI
filesystem layer) and proofs about its error classification, retry,
directory-listing, recursive-mkdir, digesting and timestamp behavior.

Syscalls are external to the translation unit; each operation is therefore
modelled as a pure function of the sequence of syscall results it would
observe (a trace), exactly mirroring the control flow of the C source.
-/

namespace UnixJni

/-! ### errno constants (Linux values, as in `/usr/include/asm-generic/errno*.h`) -/

def EPERM : Nat := 1
def ENOENT : Nat := 2
def EINTR : Nat := 4
def EIO : Nat := 5
def EBADF : Nat := 9
def EAGAIN : Nat := 11
def ENOMEM : Nat := 12
def EACCES : Nat := 13
def EFAULT : Nat := 14
def EBUSY : Nat := 16
def EEXIST : Nat := 17
def EXDEV : Nat := 18
def ENOTDIR : Nat := 20
def EISDIR : Nat := 21
def EINVAL : Nat := 22
def ENFILE : Nat := 23
def EMFILE : Nat := 24
def EFBIG : Nat := 27
def ENOSPC : Nat := 28
def EROFS : Nat := 30
def EMLINK : Nat := 31
def EPIPE : Nat := 32
def ENAMETOOLONG : Nat := 36
def ENOSYS : Nat := 38
def ENOTEMPTY : Nat := 39
def ELOOP : Nat := 40
def ENODATA : Nat := 61
def ENOLINK : Nat := 67
def EMULTIHOP : Nat := 72
def ENOTSUP : Nat := 95
def ETIMEDOUT : Nat := 110

/-! ### ErrorKind and the classifiers -/

/-- The abstract error taxonomy.  Each Java exception class selected by
`PostException` corresponds to one kind:
`IllegalArgumentException` = InvalidArgument, `SocketTimeoutException` =
Timeout, `FileNotFoundException` = NotFound, `FileAccessException` =
PermissionDenied, `FilePermissionException` = OperationNotPermitted,
`InterruptedIOException` = Interrupted, `OutOfMemoryError` = OutOfMemory,
`UnsupportedOperationException` = Unsupported, `IOException` = GenericIOError (the spec's GenericIO kind). -/
inductive ErrorKind where
  | InvalidArgument
  | NotFound
  | PermissionDenied
  | OperationNotPermitted
  | Interrupted
  | OutOfMemory
  | Unsupported
  | Timeout
  | GenericIOError
deriving DecidableEq, Repr

/-- Embedding of `PostException`'s switch on `error_number`
(`unix_jni.cc:141-208`): selects the exception class (abstracted to its
`ErrorKind`) for a given errno.  The long run of explicitly listed I/O codes
(`ENAMETOOLONG`, `ENODATA`, `EINVAL`, `EMULTIHOP`, `ENOLINK`, `EIO` , `EAGAIN`,
`EFBIG`, `EPIPE`, `ENOSPC`, `EXDEV`, `EROFS`, `EEXIST`, `EMLINK`, `ELOOP`,
`EISDIR`, `ENOTDIR`, `ENOTEMPTY`, `EBUSY`, `ENFILE`, `EMFILE`) falls into the
same `default:` arm as every unlisted code, yielding `IOException`. -/
def classify (e : Nat) : ErrorKind :=
  if e = EFAULT ∨ e = EBADF then .InvalidArgument
  else if e = ETIMEDOUT then .Timeout
  else if e = ENOENT then .NotFound
  else if e = EACCES then .PermissionDenied
  else if e = EPERM then .OperationNotPermitted
  else if e = EINTR then .Interrupted
  else if e = ENOMEM then .OutOfMemory
  else if e = ENOSYS ∨ e = ENOTSUP then .Unsupported
  else .GenericIOError

/-- Embedding of `PostRuntimeException`'s switch (`unix_jni.cc:213-248`): the
narrow "unexpected" classifier.  `some k` means an exception of kind `k` is
thrown (the function returns true); `none` means no exception is thrown. -/
def classifyRuntime (e : Nat) : Option ErrorKind :=
  if e = EFAULT ∨ e = EBADF then some .InvalidArgument
  else if e = ENOMEM then some .OutOfMemory
  else if e = ENOTSUP then some .Unsupported
  else none

/-- Modelled from the spec: `ErrorMessage` (declared in `unix_jni.h`, defined
outside the provided sources) returns the standard UNIX error description for
an errno; modelled as an injective rendering of the number. -/
def errorMessage (e : Nat) : String := "errno " ++ toString e

/-- A posted exception: its abstract kind together with the message built by
the posting helper. -/
structure Exn where
  kind : ErrorKind
  message : String
deriving DecidableEq, Repr

/-- Embedding of `PostFileException` (`unix_jni.cc:251-255`): file name plus
parenthesized error description, classified by `PostException`. -/
def postFileException (e : Nat) (filename : String) : Exn :=
  ⟨classify e, filename ++ " (" ++ errorMessage e ++ ")"⟩

/-- The codes the claim maps explicitly (to a kind or to GenericIOError). -/
def c1ListedCodes : List Nat :=
  [EFAULT, EBADF, ENOENT, EACCES, EPERM, EINTR, ENOMEM, ENOSYS, ENOTSUP,
   ENAMETOOLONG, ENOSPC, EXDEV, EROFS, EEXIST, EMLINK, ELOOP, ENOTDIR,
   EISDIR, ENOTEMPTY, EBUSY, ENFILE, EMFILE, EINVAL, ENODATA, EMULTIHOP,
   ENOLINK, EAGAIN, EPIPE, EFBIG]

theorem c1ListedCodes_no_timeout : ETIMEDOUT ∉ c1ListedCodes := by decide

/-- C1 counterexample: `ETIMEDOUT` is not among the codes the claim names, so
the claim requires it to classify as `GenericIOError` by default; the code maps it
to `SocketTimeoutException`, i.e. `Timeout`. -/
theorem c1_counterexample :
    ETIMEDOUT ∉ c1ListedCodes ∧
    classify ETIMEDOUT = ErrorKind.Timeout ∧
    ErrorKind.Timeout ≠ ErrorKind.GenericIOError := by
  refine ⟨c1ListedCodes_no_timeout, by decide, by decide⟩

theorem classify_eio_generic :
    classify EIO = ErrorKind.GenericIOError := by decide

/-- C1 (amended): the classifier is a pure total function realizing all the
specific mappings the claim lists, with the single addition that `ETIMEDOUT`
maps to `Timeout`; every code carrying none of the specially-mapped errnos
classifies to `GenericIOError` by default. -/
theorem c1_classify_amended :
    classify EFAULT = ErrorKind.InvalidArgument ∧
    classify EBADF = ErrorKind.InvalidArgument ∧
    classify ETIMEDOUT = ErrorKind.Timeout ∧
    classify ENOENT = ErrorKind.NotFound ∧
    classify EACCES = ErrorKind.PermissionDenied ∧
    classify EPERM = ErrorKind.OperationNotPermitted ∧
    ErrorKind.OperationNotPermitted ≠ ErrorKind.PermissionDenied ∧
    classify EINTR = ErrorKind.Interrupted ∧
    classify ENOMEM = ErrorKind.OutOfMemory ∧
    classify ENOSYS = ErrorKind.Unsupported ∧
    classify ENOTSUP = ErrorKind.Unsupported ∧
    (classify ENAMETOOLONG = ErrorKind.GenericIOError ∧
     classify ENOSPC = ErrorKind.GenericIOError ∧
     classify EXDEV = ErrorKind.GenericIOError ∧
     classify EROFS = ErrorKind.GenericIOError ∧
     classify EEXIST = ErrorKind.GenericIOError ∧
     classify EMLINK = ErrorKind.GenericIOError ∧
     classify ELOOP = ErrorKind.GenericIOError ∧
     classify ENOTDIR = ErrorKind.GenericIOError ∧
     classify EISDIR = ErrorKind.GenericIOError ∧
     classify ENOTEMPTY = ErrorKind.GenericIOError ∧
     classify EBUSY = ErrorKind.GenericIOError ∧
     classify ENFILE = ErrorKind.GenericIOError ∧
     classify EMFILE = ErrorKind.GenericIOError ∧
     classify EIO = ErrorKind.GenericIOError ∧
     classify EAGAIN = ErrorKind.GenericIOError ∧
     classify EPIPE = ErrorKind.GenericIOError ∧
     classify EFBIG = ErrorKind.GenericIOError) ∧
    (∀ e : Nat,
      (e = EFAULT ∨ e = EBADF ∨ e = ETIMEDOUT ∨ e = ENOENT ∨ e = EACCES ∨
       e = EPERM ∨ e = EINTR ∨ e = ENOMEM ∨ e = ENOSYS ∨ e = ENOTSUP) ∨
      classify e = ErrorKind.GenericIOError) := by
  refine ⟨by decide, by decide, by decide, by decide, by decide, by decide,
    by decide, by decide, by decide, by decide, by decide,
    ⟨by decide, by decide, by decide, by decide, by decide, by decide,
     by decide, by decide, by decide, by decide, by decide, by decide,
     by decide, classify_eio_generic, by decide, by decide, by decide⟩, ?_⟩
  intro e
  by_cases h : (e = EFAULT ∨ e = EBADF ∨ e = ETIMEDOUT ∨ e = ENOENT ∨
      e = EACCES ∨ e = EPERM ∨ e = EINTR ∨ e = ENOMEM ∨ e = ENOSYS ∨
      e = ENOTSUP)
  · exact Or.inl h
  · right
    push_neg at h
    obtain ⟨h1, h2, h3, h4, h5, h6, h7, h8, h9, h10⟩ := h
    simp [classify, h1, h2, h3, h4, h5, h6, h7, h8, h9, h10]

/-! ### Syscall result traces -/

/-- The outcome of one invocation of a syscall: success with a value, or
failure with the errno it leaves behind. -/
inductive SysRes (α : Type) where
  | ok (v : α)
  | err (e : Nat)
deriving DecidableEq, Repr

/-- The result observed by a `while (call() == -1 && errno == EINTR) {}` retry
loop, given the trace of successive invocation outcomes: the first outcome
that is not an `EINTR` failure (`none` if the trace runs out, i.e. the loop is
still spinning). -/
def firstNonEintr {α : Type} : List (SysRes α) → Option (SysRes α)
  | [] => none
  | SysRes.ok v :: _ => some (SysRes.ok v)
  | SysRes.err e :: rest =>
      if e = EINTR then firstNonEintr rest else some (SysRes.err e)

theorem firstNonEintr_eintr {α : Type} (rest : List (SysRes α)) :
    firstNonEintr (SysRes.err EINTR :: rest) = firstNonEintr rest := by
  simp [firstNonEintr]

/-! ### stat buffers and FileStatus -/

def S_IFMT : Nat := 0o170000
def S_IFDIR : Nat := 0o040000
def S_IFREG : Nat := 0o100000

def S_ISDIR (m : Nat) : Bool := m &&& S_IFMT == S_IFDIR
def S_ISREG (m : Nat) : Bool := m &&& S_IFMT == S_IFREG

/-- A `portable_stat_struct` as consumed by this file: mode bits, the three
timestamps (via `StatSeconds`/`StatNanoSeconds`), size, device and inode. -/
structure StatBuf where
  st_mode : Nat
  atimeSec : Int
  atimeNsec : Nat
  mtimeSec : Int
  mtimeNsec : Nat
  ctimeSec : Int
  ctimeNsec : Nat
  st_size : Int
  st_dev : Nat
  st_ino : Nat
deriving DecidableEq, Repr

/-- The `FileStatus` object built by `NewFileStatus` (`unix_jni.cc:325-347`):
a field-for-field snapshot of the stat buffer. -/
structure FileStatus where
  mode : Nat
  atimeSec : Int
  atimeNsec : Nat
  mtimeSec : Int
  mtimeNsec : Nat
  ctimeSec : Int
  ctimeNsec : Nat
  size : Int
  dev : Nat
  ino : Nat
deriving DecidableEq, Repr

def newFileStatus (s : StatBuf) : FileStatus :=
  ⟨s.st_mode, s.atimeSec, s.atimeNsec, s.mtimeSec, s.mtimeNsec, s.ctimeSec,
   s.ctimeNsec, s.st_size, s.st_dev, s.st_ino⟩

/-- The `ErrnoFileStatus` object (`NewErrnoFileStatus`,
`unix_jni.cc:349-382`): either an errno-only value or a full metadata
snapshot, depending on which constructor was invoked. -/
inductive ErrnoFileStatus where
  | withErrno (savedErrno : Nat)
  | status (st : FileStatus)
deriving DecidableEq, Repr

/-- `NewErrnoFileStatus`: `saved_errno != 0` selects the errno-only
constructor, otherwise all stat fields are marshalled. -/
def newErrnoFileStatus (savedErrno : Nat) (s : StatBuf) : ErrnoFileStatus :=
  if savedErrno ≠ 0 then .withErrno savedErrno else .status (newFileStatus s)

/-- What `StatCommon` hands back to Java on success: a `FileStatus` when
`should_throw`, an `ErrnoFileStatus` otherwise. -/
inductive StatResult where
  | fileStatus (st : FileStatus)
  | errnoStatus (st : ErrnoFileStatus)
deriving DecidableEq, Repr

/-- Embedding of `StatCommon` (`unix_jni.cc:405-436`).  `calls` is the trace
of outcomes of the successive `stat_function` invocations made by the EINTR
retry loop; `garbage` is the (uninitialized) stat buffer contents in case the
syscall never succeeds.  Returns `none` if the trace is exhausted while the
retry loop is still spinning. -/
def statCommon (path : String) (garbage : StatBuf)
    (calls : List (SysRes StatBuf)) (shouldThrow : Bool) :
    Option (Except Exn StatResult) :=
  match firstNonEintr calls with
  | none => none
  | some (SysRes.ok statbuf) =>
      some (.ok (if shouldThrow then .fileStatus (newFileStatus statbuf)
                 else .errnoStatus (newErrnoFileStatus 0 statbuf)))
  | some (SysRes.err savedErrno) =>
      match classifyRuntime savedErrno with
      | some k =>
          some (.error ⟨k, path ++ " (" ++ errorMessage savedErrno ++ ")"⟩)
      | none =>
          if shouldThrow then some (.error (postFileException savedErrno path))
          else some (.ok (.errnoStatus (newErrnoFileStatus savedErrno garbage)))

/-! ### Single-syscall operations (no retry loop in the source) -/

/-- Embedding of `..._NativePosixFiles_chmod` (`unix_jni.cc:284-294`): one
`chmod` syscall, no retry; any failure is posted via `PostFileException`.
The operation consumes only the first element of the trace. -/
def chmodOp (path : String) (calls : List (SysRes Unit)) :
    Option (Except Exn Unit) :=
  match calls with
  | [] => none
  | SysRes.ok _ :: _ => some (.ok ())
  | SysRes.err e :: _ => some (.error (postFileException e path))

/-- Embedding of `link_common` (`unix_jni.cc:296-307`), shared by `link` and
`symlink`: one syscall, failure posted against the second (new) path. -/
def linkCommon (oldpath newpath : String) (calls : List (SysRes Unit)) :
    Option (Except Exn Unit) :=
  match calls with
  | [] => none
  | SysRes.ok _ :: _ => some (.ok ())
  | SysRes.err e :: _ => some (.error (postFileException e newpath))

/-- Embedding of `..._NativePosixFiles_rename` (`unix_jni.cc:781-799`): one
syscall, failure posted against `old -> new`. -/
def renameOp (oldpath newpath : String) (calls : List (SysRes Unit)) :
    Option (Except Exn Unit) :=
  match calls with
  | [] => none
  | SysRes.ok _ :: _ => some (.ok ())
  | SysRes.err e :: _ =>
      some (.error (postFileException e (oldpath ++ " -> " ++ newpath)))

/-- Embedding of `..._NativePosixFiles_mkfifo` (`unix_jni.cc:854-864`). -/
def mkfifoOp (path : String) (calls : List (SysRes Unit)) :
    Option (Except Exn Unit) :=
  match calls with
  | [] => none
  | SysRes.ok _ :: _ => some (.ok ())
  | SysRes.err e :: _ => some (.error (postFileException e path))

/-- Embedding of the syscall-facing part of `..._NativePosixFiles_utime`
(`unix_jni.cc:494-517`): one `utimensat`/`utime` call, no retry. -/
def utimeOp (path : String) (calls : List (SysRes Unit)) :
    Option (Except Exn Unit) :=
  match calls with
  | [] => none
  | SysRes.ok _ :: _ => some (.ok ())
  | SysRes.err e :: _ => some (.error (postFileException e path))

/-- Embedding of `delete_common` (`unix_jni.cc:801-817`): one delete syscall;
an errno accepted by `error_function` is absorbed into a `false` result with
no exception, any other errno raises. -/
def deleteCommon (path : String) (calls : List (SysRes Unit))
    (errorFunction : Nat → Bool) : Option (Except Exn Bool) :=
  match calls with
  | [] => none
  | SysRes.ok _ :: _ => some (.ok true)
  | SysRes.err e :: _ =>
      if errorFunction e then some (.ok false)
      else some (.error (postFileException e path))

/-- `unlink_err` (`unix_jni.cc:819`). -/
def unlinkErr (e : Nat) : Bool := e == ENOENT

/-- `remove_err` (`unix_jni.cc:820`). -/
def removeErr (e : Nat) : Bool := e == ENOENT || e == ENOTDIR

/-- `..._NativePosixFiles_unlink` (`unix_jni.cc:828-833`). -/
def unlinkOp (path : String) (calls : List (SysRes Unit)) :
    Option (Except Exn Bool) :=
  deleteCommon path calls unlinkErr

/-- `..._NativePosixFiles_remove` (`unix_jni.cc:841-846`). -/
def removeOp (path : String) (calls : List (SysRes Unit)) :
    Option (Except Exn Bool) :=
  deleteCommon path calls removeErr

/-- Embedding of `..._NativePosixFiles_mkdir` (`unix_jni.cc:537-558`): one
`mkdir` syscall; `EEXIST` is absorbed into a `false` result, other failures
raise. -/
def mkdirOp (path : String) (calls : List (SysRes Unit)) :
    Option (Except Exn Bool) :=
  match calls with
  | [] => none
  | SysRes.ok _ :: _ => some (.ok true)
  | SysRes.err e :: _ =>
      if e = EEXIST then some (.ok false)
      else some (.error (postFileException e path))

/-! ### Sample stat buffers used by witnesses -/

def zeroStat : StatBuf := ⟨0, 0, 0, 0, 0, 0, 0, 0, 0, 0⟩

/-- A stat buffer whose mode bits denote a directory. -/
def dirStat : StatBuf := ⟨0o040755, 1, 2, 3, 4, 5, 6, 7, 8, 9⟩

/-- A stat buffer whose mode bits denote a regular file. -/
def regStat : StatBuf := ⟨0o100644, 1, 2, 3, 4, 5, 6, 7, 8, 9⟩

/-- C2 counterexample: `chmod` does not retry on `EINTR`.  When the first
`chmod` syscall fails with `EINTR` and a retry would succeed, the operation
fails the call with an `Interrupted` classified error instead of retrying. -/
theorem c2_counterexample :
    chmodOp "p" [SysRes.err EINTR, SysRes.ok ()] =
      some (Except.error (postFileException EINTR "p")) ∧
    (postFileException EINTR "p").kind = ErrorKind.Interrupted ∧
    chmodOp "p" [SysRes.ok ()] = some (Except.ok ()) :=
  ⟨rfl, by simp [postFileException, classify, EINTR, EFAULT, EBADF, ETIMEDOUT,
      ENOENT, EACCES, EPERM], rfl⟩

/-- C2 (amended): only the stat family (`StatCommon`, hence `stat`, `lstat`,
`errnoStat`, `errnoLstat`) retries transparently on `EINTR`; every other
`PathOperations` operation (`chmod`, `link`, `symlink`, `rename`, `unlink`,
`remove`, `mkfifo`, `utime`, `mkdir`) performs exactly one underlying syscall
(its result depends only on the first outcome in the trace) and treats an
`EINTR` failure like any other failure: `chmod` raises a classified
`Interrupted` error, and the absorption filters of `unlink`/`mkdir` do not
absorb `EINTR` either. -/
theorem c2_amended (path oldpath newpath : String) (garbage : StatBuf)
    (calls : List (SysRes StatBuf)) (c : SysRes Unit)
    (rest rest' : List (SysRes Unit)) (b : Bool) :
    (statCommon path garbage (SysRes.err EINTR :: calls) b =
      statCommon path garbage calls b) ∧
    (chmodOp path (c :: rest) = chmodOp path (c :: rest')) ∧
    (linkCommon oldpath newpath (c :: rest) =
      linkCommon oldpath newpath (c :: rest')) ∧
    (renameOp oldpath newpath (c :: rest) =
      renameOp oldpath newpath (c :: rest')) ∧
    (mkfifoOp path (c :: rest) = mkfifoOp path (c :: rest')) ∧
    (utimeOp path (c :: rest) = utimeOp path (c :: rest')) ∧
    (unlinkOp path (c :: rest) = unlinkOp path (c :: rest')) ∧
    (removeOp path (c :: rest) = removeOp path (c :: rest')) ∧
    (mkdirOp path (c :: rest) = mkdirOp path (c :: rest')) ∧
    (chmodOp path (SysRes.err EINTR :: rest) =
      some (Except.error (postFileException EINTR path))) ∧
    (unlinkOp path (SysRes.err EINTR :: rest) =
      some (Except.error (postFileException EINTR path))) ∧
    (mkdirOp path (SysRes.err EINTR :: rest) =
      some (Except.error (postFileException EINTR path))) ∧
    (postFileException EINTR path).kind = ErrorKind.Interrupted := by
  refine ⟨by simp [statCommon, firstNonEintr_eintr], ?_, ?_, ?_, ?_, ?_, ?_,
    ?_, ?_, rfl, ?_, ?_, ?_⟩
  · cases c <;> rfl
  · cases c <;> rfl
  · cases c <;> rfl
  · cases c <;> rfl
  · cases c <;> rfl
  · cases c <;> rfl
  · cases c <;> rfl
  · cases c <;> rfl
  · simp [unlinkOp, deleteCommon, unlinkErr, EINTR, ENOENT]
  · simp [mkdirOp, EINTR, EEXIST]
  · simp [postFileException, classify, EINTR, EFAULT, EBADF, ETIMEDOUT,
      ENOENT, EACCES, EPERM]

/-- C3: the non-throwing stat variants (`errnoStat`/`errnoLstat`, i.e.
`StatCommon` with `should_throw = false`) never fail the call: a successful
syscall yields a fully populated metadata snapshot, a failing syscall yields
a result tagged with the saved errno (regardless of the uninitialized buffer
contents), except when the errno is in the unexpected subset
`{EFAULT, EBADF, ENOMEM, ENOTSUP}` recognized by `PostRuntimeException`, in
which case the call itself fails.  Exactly one variant is ever populated:
`newErrnoFileStatus` selects by whether the saved errno is zero. -/
theorem c3_errnoStat (path : String) (garbage s : StatBuf)
    (calls : List (SysRes StatBuf)) (e : Nat) :
    (firstNonEintr calls = some (SysRes.ok s) →
      statCommon path garbage calls false =
        some (Except.ok (StatResult.errnoStatus
          (ErrnoFileStatus.status (newFileStatus s))))) ∧
    (firstNonEintr calls = some (SysRes.err e) → e ≠ 0 →
      classifyRuntime e = none →
      statCommon path garbage calls false =
        some (Except.ok (StatResult.errnoStatus
          (ErrnoFileStatus.withErrno e)))) ∧
    (∀ k : ErrorKind, firstNonEintr calls = some (SysRes.err e) →
      classifyRuntime e = some k →
      statCommon path garbage calls false =
        some (Except.error ⟨k, path ++ " (" ++ errorMessage e ++ ")"⟩)) ∧
    ((classifyRuntime e).isSome ↔
      (e = EFAULT ∨ e = EBADF ∨ e = ENOMEM ∨ e = ENOTSUP)) ∧
    (e ≠ 0 → newErrnoFileStatus e garbage = ErrnoFileStatus.withErrno e) ∧
    (newErrnoFileStatus 0 s = ErrnoFileStatus.status (newFileStatus s)) := by
  refine ⟨?_, ?_, ?_, ?_, ?_, by simp [newErrnoFileStatus]⟩
  · intro h
    simp [statCommon, h, newErrnoFileStatus]
  · intro h he hc
    simp [statCommon, h, hc, newErrnoFileStatus, he]
  · intro k h hc
    simp [statCommon, h, hc]
  · constructor
    · intro h
      by_cases h1 : e = EFAULT ∨ e = EBADF
      · tauto
      · by_cases h2 : e = ENOMEM
        · tauto
        · by_cases h3 : e = ENOTSUP
          · tauto
          · simp [classifyRuntime, h1, h2, h3] at h
    · intro h
      rcases h with h | h | h | h <;> simp [classifyRuntime, h, EFAULT, EBADF,
        ENOMEM, ENOTSUP]
  · intro h
    simp [newErrnoFileStatus, h]

theorem c3_errnoStat_witness :
    (firstNonEintr ([SysRes.err EINTR, SysRes.err ENOENT] :
        List (SysRes StatBuf)) =
      some (SysRes.err ENOENT) ∧ ENOENT ≠ 0 ∧ classifyRuntime ENOENT = none ∧
      statCommon "p" zeroStat [SysRes.err EINTR, SysRes.err ENOENT] false =
        some (Except.ok (StatResult.errnoStatus
          (ErrnoFileStatus.withErrno ENOENT)))) ∧
    (firstNonEintr [SysRes.ok regStat] = some (SysRes.ok regStat) ∧
      statCommon "p" zeroStat [SysRes.ok regStat] false =
        some (Except.ok (StatResult.errnoStatus
          (ErrnoFileStatus.status (newFileStatus regStat))))) ∧
    (classifyRuntime EFAULT = some ErrorKind.InvalidArgument ∧
      statCommon "p" zeroStat [SysRes.err EFAULT] false =
        some (Except.error ⟨ErrorKind.InvalidArgument,
          "p" ++ " (" ++ errorMessage EFAULT ++ ")"⟩)) :=
  ⟨⟨by simp [firstNonEintr, EINTR, ENOENT], by decide, by decide,
    (c3_errnoStat "p" zeroStat zeroStat
      [SysRes.err EINTR, SysRes.err ENOENT] ENOENT).2.1
      (by simp [firstNonEintr, EINTR, ENOENT]) (by decide) (by decide)⟩,
   ⟨rfl, (c3_errnoStat "p" zeroStat regStat [SysRes.ok regStat] ENOENT).1 rfl⟩,
   ⟨by decide,
    (c3_errnoStat "p" zeroStat zeroStat [SysRes.err EFAULT] EFAULT).2.2.1
      ErrorKind.InvalidArgument (by simp [firstNonEintr, EFAULT, EINTR])
      (by decide)⟩⟩

/-- C5: idempotent absorption uses exactly these code sets: `unlink` absorbs
only `ENOENT`, `remove` absorbs exactly `ENOENT` and `ENOTDIR`, `mkdir`
absorbs only `EEXIST` (returning `false`); every other failing code raises a
classified error. -/
theorem c5_absorption (path : String) (e : Nat) (rest : List (SysRes Unit)) :
    (unlinkOp path (SysRes.err e :: rest) = some (Except.ok false) ↔
      e = ENOENT) ∧
    (e ≠ ENOENT → unlinkOp path (SysRes.err e :: rest) =
      some (Except.error (postFileException e path))) ∧
    (removeOp path (SysRes.err e :: rest) = some (Except.ok false) ↔
      (e = ENOENT ∨ e = ENOTDIR)) ∧
    (e ≠ ENOENT → e ≠ ENOTDIR → removeOp path (SysRes.err e :: rest) =
      some (Except.error (postFileException e path))) ∧
    (mkdirOp path (SysRes.err e :: rest) = some (Except.ok false) ↔
      e = EEXIST) ∧
    (e ≠ EEXIST → mkdirOp path (SysRes.err e :: rest) =
      some (Except.error (postFileException e path))) := by
  refine ⟨?_, ?_, ?_, ?_, ?_, ?_⟩
  · by_cases h : e = ENOENT <;>
      simp [unlinkOp, deleteCommon, unlinkErr, h]
  · intro h
    simp [unlinkOp, deleteCommon, unlinkErr, h]
  · by_cases h : e = ENOENT
    · simp [removeOp, deleteCommon, removeErr, h]
    · by_cases h2 : e = ENOTDIR <;>
        simp [removeOp, deleteCommon, removeErr, h, h2]
  · intro h h2
    simp [removeOp, deleteCommon, removeErr, h, h2]
  · by_cases h : e = EEXIST <;> simp [mkdirOp, h]
  · intro h
    simp [mkdirOp, h]

theorem c5_absorption_witness :
    (unlinkOp "p" [SysRes.err ENOENT] = some (Except.ok false)) ∧
    (EACCES ≠ ENOENT ∧ unlinkOp "p" [SysRes.err EACCES] =
      some (Except.error (postFileException EACCES "p"))) ∧
    (removeOp "p" [SysRes.err ENOTDIR] = some (Except.ok false)) ∧
    (EACCES ≠ ENOENT ∧ EACCES ≠ ENOTDIR ∧ removeOp "p" [SysRes.err EACCES] =
      some (Except.error (postFileException EACCES "p"))) ∧
    (mkdirOp "p" [SysRes.err EEXIST] = some (Except.ok false)) ∧
    (ENOSPC ≠ EEXIST ∧ mkdirOp "p" [SysRes.err ENOSPC] =
      some (Except.error (postFileException ENOSPC "p"))) :=
  ⟨(c5_absorption "p" ENOENT []).1.mpr rfl,
   ⟨by decide, (c5_absorption "p" EACCES []).2.1 (by decide)⟩,
   (c5_absorption "p" ENOTDIR []).2.2.1.mpr (Or.inr rfl),
   ⟨by decide, by decide,
    (c5_absorption "p" EACCES []).2.2.2.1 (by decide) (by decide)⟩,
   (c5_absorption "p" EEXIST []).2.2.2.2.1.mpr rfl,
   ⟨by decide, (c5_absorption "p" ENOSPC []).2.2.2.2.2 (by decide)⟩⟩

/-! ### Recursive directory creation (`mkdirs`, `unix_jni.cc:566-640`)

The path is a character array; the algorithm stats/creates the prefixes that
end just before a slash character.  Syscall outcomes are supplied by an event
trace consumed in program order; the functions also log which syscall was
issued on which prefix, so that theorems can speak about what was created. -/

/-- One syscall outcome observed by `mkdirs`, in program order. -/
inductive FsEv where
  | statOk (s : StatBuf)
  | statErr (e : Nat)
  | mkdirOk
  | mkdirErr (e : Nat)
deriving DecidableEq, Repr

/-- A logged syscall invocation: which call, on which path. -/
inductive FsCall where
  | statCall (p : List Char)
  | mkdirCall (p : List Char)
deriving DecidableEq, Repr

/-- The slash positions probed by the backward walk
(`for (p = path + len - 1; p > path; --p) if (*p == '/')`):
every index `i` with `0 < i` holding a slash, in descending order. -/
def slashesDesc (path : List Char) : List Nat :=
  ((List.range path.length).filter
    (fun i => decide (0 < i) && decide (path.getD i ' ' = '/'))).reverse

/-- The slash positions visited by the forward walk
(`for (; p < end; ++p) if (*p == '/')`), starting at index `start`
(inclusive), in ascending order. -/
def fwdSlashes (path : List Char) (start : Nat) : List Nat :=
  (List.range path.length).filter
    (fun i => decide (start ≤ i) && decide (path.getD i ' ' = '/'))

/-- Outcome of the backward walk: the index where an existing prefix was
found (0 when the walk reached the beginning), or a posted exception. -/
inductive BwResult where
  | found (start : Nat)
  | failed (exn : Exn)
deriving DecidableEq, Repr

/-- The backward walk of `mkdirs` (`unix_jni.cc:590-606`): stat successively
shorter prefixes; break on the first that exists, skip `ENOENT`, fail on any
other errno.  The slash is restored (`*p = '/'`, line 596) before
`PostFileException` (line 602), so the posted exception names the full
path even though the stat ran on the prefix.  Returns the remaining events
and the log of stats issued. -/
def backwardWalk (path : List Char) (idxs : List Nat) (evs : List FsEv) :
    Option (BwResult × List FsEv × List FsCall) :=
  match idxs with
  | [] => some (.found 0, evs, [])
  | i :: rest =>
    match evs with
    | FsEv.statOk _ :: evs2 =>
        some (.found i, evs2, [FsCall.statCall (path.take i)])
    | FsEv.statErr e :: evs2 =>
        if e = ENOENT then
          match backwardWalk path rest evs2 with
          | none => none
          | some (r, evs3, log) =>
              some (r, evs3, FsCall.statCall (path.take i) :: log)
        else
          some (.failed (postFileException e (String.mk path)), evs2,
                [FsCall.statCall (path.take i)])
    | _ => none

/-- The forward walk of `mkdirs` (`unix_jni.cc:609-622`): create each
intermediate directory; `EEXIST` is tolerated (a concurrent creator won the
race) and the walk continues; any other failure aborts with that error.
The slash is restored (`*p = '/'`, line 613) before `PostFileException`
(line 618), so the posted exception names the full path even though the
`mkdir` ran on the prefix. -/
def forwardWalk (path : List Char) (idxs : List Nat) (evs : List FsEv) :
    Option (Option Exn × List FsEv × List FsCall) :=
  match idxs with
  | [] => some (none, evs, [])
  | i :: rest =>
    match evs with
    | FsEv.mkdirOk :: evs2 =>
        match forwardWalk path rest evs2 with
        | none => none
        | some (r, evs3, log) =>
            some (r, evs3, FsCall.mkdirCall (path.take i) :: log)
    | FsEv.mkdirErr e :: evs2 =>
        if e = EEXIST then
          match forwardWalk path rest evs2 with
          | none => none
          | some (r, evs3, log) =>
              some (r, evs3, FsCall.mkdirCall (path.take i) :: log)
        else
          some (some (postFileException e (String.mk path)), evs2,
                [FsCall.mkdirCall (path.take i)])
    | _ => none

/-- The final `mkdir` of `mkdirs` (`unix_jni.cc:623-637`): on `EEXIST` the
target is stat-ed again and must be a directory (`ENOTDIR` otherwise; a
failing stat surfaces its own errno); any other `mkdir` failure surfaces. -/
def finalMkdir (path : List Char) (evs : List FsEv) :
    Option (Except Exn Unit × List FsCall) :=
  match evs with
  | FsEv.mkdirOk :: _ => some (.ok (), [FsCall.mkdirCall path])
  | FsEv.mkdirErr e :: evs2 =>
      if e = EEXIST then
        match evs2 with
        | FsEv.statOk s :: _ =>
            if S_ISDIR s.st_mode then
              some (.ok (), [FsCall.mkdirCall path, FsCall.statCall path])
            else
              some (.error (postFileException ENOTDIR (String.mk path)),
                    [FsCall.mkdirCall path, FsCall.statCall path])
        | FsEv.statErr e2 :: _ =>
            some (.error (postFileException e2 (String.mk path)),
                  [FsCall.mkdirCall path, FsCall.statCall path])
        | _ => none
      else
        some (.error (postFileException e (String.mk path)),
              [FsCall.mkdirCall path])
  | _ => none

/-- Embedding of `..._NativePosixFiles_mkdirs` (`unix_jni.cc:566-640`):
initial stat of the full target, backward walk to the deepest existing
prefix, forward walk creating intermediates, final `mkdir` with the
`EEXIST`-recheck.  Returns the outcome together with the log of syscalls
issued; `none` when the event trace does not cover the execution. -/
def mkdirs (path : List Char) (evs : List FsEv) :
    Option (Except Exn Unit × List FsCall) :=
  match evs with
  | FsEv.statOk s :: _ =>
      if S_ISDIR s.st_mode then some (.ok (), [FsCall.statCall path])
      else some (.error (postFileException ENOTDIR (String.mk path)),
                 [FsCall.statCall path])
  | FsEv.statErr e :: evs2 =>
      if e = ENOENT then
        match backwardWalk path (slashesDesc path) evs2 with
        | none => none
        | some (.failed exn, _, log) =>
            some (.error exn, FsCall.statCall path :: log)
        | some (.found start, evs3, log) =>
            match forwardWalk path (fwdSlashes path start) evs3 with
            | none => none
            | some (some exn, _, log2) =>
                some (.error exn, FsCall.statCall path :: (log ++ log2))
            | some (none, evs4, log2) =>
                match finalMkdir path evs4 with
                | none => none
                | some (r, log3) =>
                    some (r, FsCall.statCall path :: (log ++ log2 ++ log3))
      else
        some (.error (postFileException e (String.mk path)),
              [FsCall.statCall path])
  | _ => none

/-- C4: recursive directory creation.  (1) If the initial stat finds a
directory, `mkdirs` succeeds immediately, having issued no `mkdir` call;
(2) if it finds a non-directory, it fails with `ENOTDIR`; (3) if the initial
stat fails with anything other than `ENOENT`, that classified error is
surfaced; (4)/(5) when the final `mkdir` fails with `EEXIST`, the target is
stat-ed again and must be a directory (`ENOTDIR` otherwise), and a failure of
that stat surfaces its errno; (6) an `EEXIST` failure while creating an
intermediate directory is tolerated and creation continues; (7) a
non-`ENOENT` stat failure during the backward walk, and (8) a non-`EEXIST`
`mkdir` failure during the forward walk, abort with that classified error,
posted against the full path (the syscall itself ran on the prefix). -/
theorem c4_mkdirs (path : List Char) (s : StatBuf) (e e2 : Nat)
    (evs : List FsEv) (i : Nat) (rest : List Nat) :
    (S_ISDIR s.st_mode = true →
      mkdirs path (FsEv.statOk s :: evs) =
        some (Except.ok (), [FsCall.statCall path])) ∧
    (S_ISDIR s.st_mode = false →
      mkdirs path (FsEv.statOk s :: evs) =
        some (Except.error (postFileException ENOTDIR (String.mk path)),
              [FsCall.statCall path])) ∧
    (e ≠ ENOENT →
      mkdirs path (FsEv.statErr e :: evs) =
        some (Except.error (postFileException e (String.mk path)),
              [FsCall.statCall path])) ∧
    (S_ISDIR s.st_mode = true →
      finalMkdir path (FsEv.mkdirErr EEXIST :: FsEv.statOk s :: evs) =
        some (Except.ok (),
              [FsCall.mkdirCall path, FsCall.statCall path])) ∧
    (S_ISDIR s.st_mode = false →
      finalMkdir path (FsEv.mkdirErr EEXIST :: FsEv.statOk s :: evs) =
        some (Except.error (postFileException ENOTDIR (String.mk path)),
              [FsCall.mkdirCall path, FsCall.statCall path])) ∧
    (finalMkdir path (FsEv.mkdirErr EEXIST :: FsEv.statErr e2 :: evs) =
      some (Except.error (postFileException e2 (String.mk path)),
            [FsCall.mkdirCall path, FsCall.statCall path])) ∧
    (forwardWalk path (i :: rest) (FsEv.mkdirErr EEXIST :: evs) =
      (forwardWalk path rest evs).map
        (fun r => (r.1, r.2.1, FsCall.mkdirCall (path.take i) :: r.2.2))) ∧
    (e ≠ ENOENT →
      backwardWalk path (i :: rest) (FsEv.statErr e :: evs) =
        some (BwResult.failed (postFileException e (String.mk path)), evs,
              [FsCall.statCall (path.take i)])) ∧
    (e ≠ EEXIST →
      forwardWalk path (i :: rest) (FsEv.mkdirErr e :: evs) =
        some (some (postFileException e (String.mk path)), evs,
              [FsCall.mkdirCall (path.take i)])) := by
  refine ⟨?_, ?_, ?_, ?_, ?_, ?_, ?_, ?_, ?_⟩
  · intro h
    simp [mkdirs, h]
  · intro h
    simp [mkdirs, h]
  · intro h
    simp [mkdirs, h]
  · intro h
    simp [finalMkdir, h]
  · intro h
    simp [finalMkdir, h]
  · simp [finalMkdir]
  · cases h : forwardWalk path rest evs with
    | none => simp [forwardWalk, h]
    | some r =>
        obtain ⟨a, b, c⟩ := r
        simp [forwardWalk, h]
  · intro h
    simp [backwardWalk, h]
  · intro h
    simp [forwardWalk, h]

theorem c4_mkdirs_witness :
    (S_ISDIR dirStat.st_mode = true ∧
      mkdirs ('a' :: '/' :: 'b' :: []) [FsEv.statOk dirStat] =
        some (Except.ok (), [FsCall.statCall ('a' :: '/' :: 'b' :: [])])) ∧
    (S_ISDIR regStat.st_mode = false ∧
      mkdirs ('a' :: []) [FsEv.statOk regStat] =
        some (Except.error (postFileException ENOTDIR (String.mk ('a' :: []))),
              [FsCall.statCall ('a' :: [])])) ∧
    (EACCES ≠ ENOENT ∧
      mkdirs ('a' :: []) [FsEv.statErr EACCES] =
        some (Except.error (postFileException EACCES (String.mk ('a' :: []))),
              [FsCall.statCall ('a' :: [])])) ∧
    (finalMkdir ('a' :: []) [FsEv.mkdirErr EEXIST, FsEv.statOk dirStat] =
      some (Except.ok (),
            [FsCall.mkdirCall ('a' :: []), FsCall.statCall ('a' :: [])])) ∧
    (finalMkdir ('a' :: []) [FsEv.mkdirErr EEXIST, FsEv.statOk regStat] =
      some (Except.error (postFileException ENOTDIR (String.mk ('a' :: []))),
            [FsCall.mkdirCall ('a' :: []), FsCall.statCall ('a' :: [])])) ∧
    (finalMkdir ('a' :: []) [FsEv.mkdirErr EEXIST, FsEv.statErr EACCES] =
      some (Except.error (postFileException EACCES (String.mk ('a' :: []))),
            [FsCall.mkdirCall ('a' :: []), FsCall.statCall ('a' :: [])])) ∧
    (forwardWalk ('a' :: '/' :: 'b' :: []) [1] [FsEv.mkdirErr EEXIST] =
      some (none, [],
            [FsCall.mkdirCall (('a' :: '/' :: 'b' :: []).take 1)])) ∧
    (EACCES ≠ ENOENT ∧
      backwardWalk ('a' :: '/' :: 'b' :: []) [1] [FsEv.statErr EACCES] =
        some (BwResult.failed
                (postFileException EACCES
                  (String.mk ('a' :: '/' :: 'b' :: []))), [],
              [FsCall.statCall (('a' :: '/' :: 'b' :: []).take 1)])) ∧
    (EACCES ≠ EEXIST ∧
      forwardWalk ('a' :: '/' :: 'b' :: []) [1] [FsEv.mkdirErr EACCES] =
        some (some (postFileException EACCES
                  (String.mk ('a' :: '/' :: 'b' :: []))), [],
              [FsCall.mkdirCall (('a' :: '/' :: 'b' :: []).take 1)])) ∧
    (mkdirs ('a' :: '/' :: 'b' :: [])
        [FsEv.statErr ENOENT, FsEv.statErr ENOENT, FsEv.mkdirOk,
         FsEv.mkdirOk] =
      some (Except.ok (),
            [FsCall.statCall ('a' :: '/' :: 'b' :: []),
             FsCall.statCall ('a' :: []),
             FsCall.mkdirCall ('a' :: []),
             FsCall.mkdirCall ('a' :: '/' :: 'b' :: [])])) :=
  ⟨⟨by decide,
    (c4_mkdirs ('a' :: '/' :: 'b' :: []) dirStat 0 0 [] 0 []).1 (by decide)⟩,
   ⟨by decide, (c4_mkdirs ('a' :: []) regStat 0 0 [] 0 []).2.1 (by decide)⟩,
   ⟨by decide,
    (c4_mkdirs ('a' :: []) regStat EACCES 0 [] 0 []).2.2.1 (by decide)⟩,
   (c4_mkdirs ('a' :: []) dirStat 0 0 [] 0 []).2.2.2.1 (by decide),
   (c4_mkdirs ('a' :: []) regStat 0 0 [] 0 []).2.2.2.2.1 (by decide),
   (c4_mkdirs ('a' :: []) regStat 0 EACCES [] 0 []).2.2.2.2.2.1,
   (c4_mkdirs ('a' :: '/' :: 'b' :: []) regStat 0 0 [] 1 []).2.2.2.2.2.2.1,
   ⟨by decide,
    (c4_mkdirs ('a' :: '/' :: 'b' :: []) regStat EACCES 0 [] 1
       []).2.2.2.2.2.2.2.1 (by decide)⟩,
   ⟨by decide,
    (c4_mkdirs ('a' :: '/' :: 'b' :: []) regStat EACCES 0 [] 1
       []).2.2.2.2.2.2.2.2 (by decide)⟩,
   by rfl⟩

/-! ### Directory listing (`readdir`, `unix_jni.cc:694-773`, and
`GetDirentType`, `unix_jni.cc:662-686`) -/

/-- The `d_type` hint of a directory entry.  `dtOther` stands for every value
handled by the `default:` arm of `GetDirentType` (FIFO, character/block
device, socket, ...). -/
inductive Dtype where
  | DT_REG
  | DT_DIR
  | DT_LNK
  | DT_UNKNOWN
  | dtOther
deriving DecidableEq, Repr

/-- The stat-based fallback inside `GetDirentType`: `portable_fstatat`
relative to the open directory handle; `'f'`/`'d'` on a successful stat
showing a regular file or directory, `'?'` otherwise. -/
def statTypeFallback (statRes : SysRes StatBuf) : Char :=
  match statRes with
  | SysRes.ok s =>
      if S_ISREG s.st_mode then 'f'
      else if S_ISDIR s.st_mode then 'd'
      else '?'
  | SysRes.err _ => '?'

/-- Embedding of `GetDirentType` (`unix_jni.cc:662-686`): `statRes` is the
outcome the `portable_fstatat` call would observe (consumed only on the
symlink-followed and unknown paths). -/
def getDirentType (dtype : Dtype) (followSymlinks : Bool)
    (statRes : SysRes StatBuf) : Char :=
  match dtype with
  | .DT_REG => 'f'
  | .DT_DIR => 'd'
  | .DT_LNK =>
      if !followSymlinks then 's' else statTypeFallback statRes
  | .DT_UNKNOWN => statTypeFallback statRes
  | .dtOther => '?'

/-- One iteration's worth of `::readdir(dirh)` outcome: an entry (with the
stat outcome its type resolution would observe), or a null return with the
errno left behind (`0` = end of stream, thanks to the clear-then-check
protocol). -/
inductive RdEv where
  | entry (name : String) (dtype : Dtype) (statRes : SysRes StatBuf)
  | nullRes (e : Nat)
deriving DecidableEq, Repr

/-- The enumeration loop of `readdir` (`unix_jni.cc:715-740`), parameterized
by the `read_types` request character (`'n'` = no types, `'f'` = follow
symlinks).  Produces the (name, type) lists, or the errno of a hard fetch
failure; `none` when the trace is exhausted mid-loop. -/
def readdirLoop (readTypes : Char) (evs : List RdEv) :
    Option (Except Nat (List String × List Char)) :=
  match evs with
  | [] => none
  | RdEv.nullRes e :: rest =>
      if e = 0 then some (.ok ([], []))
      else if e = EINTR then readdirLoop readTypes rest
      else if e = EIO then readdirLoop readTypes rest
      else some (.error e)
  | RdEv.entry name dtype statRes :: rest =>
      if name = "." ∨ name = ".." then readdirLoop readTypes rest
      else
        match readdirLoop readTypes rest with
        | none => none
        | some (.error e) => some (.error e)
        | some (.ok (names, types)) =>
            some (.ok (name :: names,
              if readTypes ≠ 'n' then
                getDirentType dtype (readTypes = 'f') statRes :: types
              else types))

/-- The `Dirents` result object: names plus the optional type bytes. -/
structure Dirents where
  names : List String
  types : Option (List Char)
deriving DecidableEq, Repr

/-- Embedding of `..._NativePosixFiles_readdir` (`unix_jni.cc:694-773`):
open the directory retrying on `EINTR`; enumerate; on a hard fetch error the
handle is closed and the error posted (the close result is ignored and all
previously read entries are discarded); otherwise close, where a non-`EINTR`
close failure also fails the whole listing. -/
def readdirOp (path : String) (openCalls : List (SysRes Unit))
    (readTypes : Char) (evs : List RdEv) (closeRes : SysRes Unit) :
    Option (Except Exn Dirents) :=
  match firstNonEintr openCalls with
  | none => none
  | some (SysRes.err e) => some (.error (postFileException e path))
  | some (SysRes.ok _) =>
      match readdirLoop readTypes evs with
      | none => none
      | some (.error e) => some (.error (postFileException e path))
      | some (.ok (names, types)) =>
          match closeRes with
          | SysRes.err e =>
              if e ≠ EINTR then some (.error (postFileException e path))
              else some (.ok ⟨names,
                if readTypes ≠ 'n' then some types else none⟩)
          | SysRes.ok _ =>
              some (.ok ⟨names,
                if readTypes ≠ 'n' then some types else none⟩)

theorem readdirLoop_no_dot (readTypes : Char) (evs : List RdEv)
    (names : List String) (types : List Char) :
    readdirLoop readTypes evs = some (.ok (names, types)) →
    "." ∉ names ∧ ".." ∉ names := by
  induction evs generalizing names types with
  | nil => intro h; simp [readdirLoop] at h
  | cons ev rest ih =>
      intro h
      match ev with
      | RdEv.nullRes e =>
          by_cases h0 : e = 0
          · simp [readdirLoop, h0] at h
            obtain ⟨h1, h2⟩ := h
            subst h1; subst h2; simp
          · by_cases hi : e = EINTR
            · subst hi
              simp [readdirLoop, EINTR] at h
              exact ih _ _ h
            · by_cases hio : e = EIO
              · subst hio
                simp [readdirLoop, EINTR, EIO] at h
                exact ih _ _ h
              · simp [readdirLoop, h0, hi, hio] at h
      | RdEv.entry name dtype statRes =>
          by_cases hd : name = "." ∨ name = ".."
          · rw [readdirLoop, if_pos hd] at h
            exact ih _ _ h
          · rw [readdirLoop, if_neg hd] at h
            cases hrec : readdirLoop readTypes rest with
            | none => rw [hrec] at h; exact absurd h (by simp)
            | some r =>
                match r with
                | .error e => rw [hrec] at h; simp at h
                | .ok (names2, types2) =>
                    rw [hrec] at h
                    simp only [Option.some.injEq, Except.ok.injEq,
                      Prod.mk.injEq] at h
                    obtain ⟨h1, _⟩ := h
                    obtain ⟨hn1, hn2⟩ := ih _ _ hrec
                    constructor
                    · rw [← h1]
                      intro hc
                      rcases List.mem_cons.mp hc with hc | hc
                      · exact hd (Or.inl hc.symm)
                      · exact hn1 hc
                    · rw [← h1]
                      intro hc
                      rcases List.mem_cons.mp hc with hc | hc
                      · exact hd (Or.inr hc.symm)
                      · exact hn2 hc

/-- C6: directory listing is all-or-nothing and filtered.  (1) A successful
enumeration never contains `.` or `..`; (2)/(3) `EINTR` and `EIO` fetch
failures are swallowed and enumeration continues unchanged; (4) any other
fetch failure fails the whole listing (for every close outcome — the close
result on this path is ignored — and all previously read entries are
discarded); (5) after a complete enumeration, a non-`EINTR` close failure
fails the whole listing; (6) a listing is returned exactly when enumeration
and close both succeeded. -/
theorem c6_readdir (path : String) (readTypes : Char) (evs : List RdEv)
    (names : List String) (types : List Char) (e : Nat)
    (closeRes : SysRes Unit) :
    (readdirLoop readTypes evs = some (.ok (names, types)) →
      "." ∉ names ∧ ".." ∉ names) ∧
    (readdirLoop readTypes (RdEv.nullRes EINTR :: evs) =
      readdirLoop readTypes evs) ∧
    (readdirLoop readTypes (RdEv.nullRes EIO :: evs) =
      readdirLoop readTypes evs) ∧
    (e ≠ 0 → e ≠ EINTR → e ≠ EIO →
      readdirLoop readTypes (RdEv.nullRes e :: evs) = some (.error e)) ∧
    (readdirLoop readTypes evs = some (.error e) →
      readdirOp path [SysRes.ok ()] readTypes evs closeRes =
        some (.error (postFileException e path))) ∧
    (e ≠ EINTR → readdirLoop readTypes evs = some (.ok (names, types)) →
      readdirOp path [SysRes.ok ()] readTypes evs (SysRes.err e) =
        some (.error (postFileException e path))) ∧
    (readdirLoop readTypes evs = some (.ok (names, types)) →
      readdirOp path [SysRes.ok ()] readTypes evs (SysRes.ok ()) =
        some (.ok ⟨names, if readTypes ≠ 'n' then some types else none⟩)) := by
  refine ⟨readdirLoop_no_dot readTypes evs names types, ?_, ?_, ?_, ?_, ?_,
    ?_⟩
  · simp [readdirLoop, EINTR]
  · simp [readdirLoop, EIO]
  · intro h0 hi hio
    simp [readdirLoop, h0, hi, hio]
  · intro h
    simp [readdirOp, firstNonEintr, h]
  · intro he h
    simp [readdirOp, firstNonEintr, h, he]
  · intro h
    simp [readdirOp, firstNonEintr, h]

theorem c6_readdir_witness :
    (readdirLoop 'f'
        [RdEv.entry "." Dtype.DT_DIR (SysRes.ok dirStat),
         RdEv.entry "x" Dtype.DT_REG (SysRes.ok regStat),
         RdEv.entry ".." Dtype.DT_DIR (SysRes.ok dirStat),
         RdEv.nullRes 0] = some (.ok (["x"], ['f'])) ∧
      "." ∉ ["x"] ∧ ".." ∉ ["x"]) ∧
    (readdirLoop 'f' [RdEv.nullRes EINTR, RdEv.nullRes 0] =
      readdirLoop 'f' [RdEv.nullRes 0]) ∧
    (EACCES ≠ 0 ∧ EACCES ≠ EINTR ∧ EACCES ≠ EIO ∧
      readdirLoop 'f' [RdEv.nullRes EACCES] = some (.error EACCES)) ∧
    (readdirOp "p" [SysRes.ok ()] 'f'
        [RdEv.entry "x" Dtype.DT_REG (SysRes.ok regStat),
         RdEv.nullRes EACCES] (SysRes.err EBADF) =
      some (.error (postFileException EACCES "p"))) ∧
    (EBADF ≠ EINTR ∧
      readdirOp "p" [SysRes.ok ()] 'f' [RdEv.nullRes 0] (SysRes.err EBADF) =
        some (.error (postFileException EBADF "p"))) ∧
    (readdirOp "p" [SysRes.ok ()] 'f' [RdEv.nullRes 0] (SysRes.ok ()) =
      some (.ok ⟨[], some []⟩)) :=
  ⟨⟨by rfl,
    (c6_readdir "p" 'f'
      [RdEv.entry "." Dtype.DT_DIR (SysRes.ok dirStat),
       RdEv.entry "x" Dtype.DT_REG (SysRes.ok regStat),
       RdEv.entry ".." Dtype.DT_DIR (SysRes.ok dirStat),
       RdEv.nullRes 0] ["x"] ['f'] 0 (SysRes.ok ())).1 (by rfl)⟩,
   (c6_readdir "p" 'f' [RdEv.nullRes 0] [] [] 0 (SysRes.ok ())).2.1,
   ⟨by decide, by decide, by decide,
    (c6_readdir "p" 'f' [] [] [] EACCES (SysRes.ok ())).2.2.2.1
      (by decide) (by decide) (by decide)⟩,
   (c6_readdir "p" 'f'
      [RdEv.entry "x" Dtype.DT_REG (SysRes.ok regStat),
       RdEv.nullRes EACCES] [] [] EACCES (SysRes.err EBADF)).2.2.2.2.1
     (by rfl),
   ⟨by decide,
    (c6_readdir "p" 'f' [RdEv.nullRes 0] [] [] EBADF
       (SysRes.err EBADF)).2.2.2.2.2.1 (by decide) (by rfl)⟩,
   (c6_readdir "p" 'f' [RdEv.nullRes 0] [] [] 0
      (SysRes.ok ())).2.2.2.2.2.2 (by rfl)⟩

/-- The names-and-error view of an enumeration result, forgetting the type
bytes: used to state that type resolution never affects success or names. -/
def stripTypes (r : Option (Except Nat (List String × List Char))) :
    Option (Except Nat (List String)) :=
  r.map (fun x => x.map Prod.fst)

/-- C7: per-entry type resolution is best-effort and never fatal.  Regular
and directory hints are reported directly as `'f'`/`'d'`; a symlink hint is
`'s'` when symlinks are not followed, and otherwise resolved exactly like an
unknown hint, via a stat relative to the directory handle, giving `'f'`/`'d'`
on a successful stat showing regular/directory; every other case (stat
failure, stat showing something else, any other hint) is `'?'`.  The result
is always one of the four tags, and the stat outcome used for resolution
never changes whether the listing fails, nor its names. -/
theorem c7_getDirentType (follow : Bool) (r r2 : SysRes StatBuf)
    (s : StatBuf) (e : Nat) (name : String) (dtype : Dtype)
    (rest : List RdEv) (readTypes : Char) :
    (getDirentType Dtype.DT_REG follow r = 'f') ∧
    (getDirentType Dtype.DT_DIR follow r = 'd') ∧
    (getDirentType Dtype.DT_LNK false r = 's') ∧
    (getDirentType Dtype.DT_LNK true r =
      getDirentType Dtype.DT_UNKNOWN true r) ∧
    (S_ISREG s.st_mode = true → statTypeFallback (SysRes.ok s) = 'f') ∧
    (S_ISREG s.st_mode = false → S_ISDIR s.st_mode = true →
      statTypeFallback (SysRes.ok s) = 'd') ∧
    (S_ISREG s.st_mode = false → S_ISDIR s.st_mode = false →
      statTypeFallback (SysRes.ok s) = '?') ∧
    (statTypeFallback (SysRes.err e) = '?') ∧
    (getDirentType Dtype.dtOther follow r = '?') ∧
    (getDirentType dtype follow r = 'f' ∨
     getDirentType dtype follow r = 'd' ∨
     getDirentType dtype follow r = 's' ∨
     getDirentType dtype follow r = '?') ∧
    (stripTypes (readdirLoop readTypes (RdEv.entry name dtype r :: rest)) =
     stripTypes (readdirLoop readTypes (RdEv.entry name dtype r2 :: rest))) := by
  refine ⟨rfl, rfl, rfl, rfl, ?_, ?_, ?_, rfl, rfl, ?_, ?_⟩
  · intro h
    simp [statTypeFallback, h]
  · intro h1 h2
    simp [statTypeFallback, h1, h2]
  · intro h1 h2
    simp [statTypeFallback, h1, h2]
  · cases dtype with
    | DT_REG => simp [getDirentType]
    | DT_DIR => simp [getDirentType]
    | DT_LNK =>
        cases follow with
        | false => simp [getDirentType]
        | true =>
            cases r with
            | ok s2 =>
                simp only [getDirentType, statTypeFallback, Bool.not_true,
                  Bool.false_eq_true, if_false]
                split_ifs <;> simp
            | err e2 => simp [getDirentType, statTypeFallback]
    | DT_UNKNOWN =>
        cases r with
        | ok s2 =>
            simp only [getDirentType, statTypeFallback]
            split_ifs <;> simp
        | err e2 => simp [getDirentType, statTypeFallback]
    | dtOther => simp [getDirentType]
  · by_cases hd : name = "." ∨ name = ".."
    · simp [readdirLoop, hd]
    · cases hrec : readdirLoop readTypes rest with
      | none => simp [readdirLoop, hd, hrec, stripTypes]
      | some x =>
          match x with
          | .error e2 => simp [readdirLoop, hd, hrec, stripTypes]
          | .ok (n, t) =>
              simp [readdirLoop, hd, hrec, stripTypes, Except.map]

theorem c7_getDirentType_witness :
    (S_ISREG regStat.st_mode = true ∧
      statTypeFallback (SysRes.ok regStat) = 'f') ∧
    (S_ISREG dirStat.st_mode = false ∧ S_ISDIR dirStat.st_mode = true ∧
      statTypeFallback (SysRes.ok dirStat) = 'd') ∧
    (S_ISREG zeroStat.st_mode = false ∧ S_ISDIR zeroStat.st_mode = false ∧
      statTypeFallback (SysRes.ok zeroStat) = '?') ∧
    (getDirentType Dtype.DT_LNK true (SysRes.err EACCES) = '?') ∧
    (stripTypes (readdirLoop 'f'
        [RdEv.entry "x" Dtype.DT_UNKNOWN (SysRes.err EACCES),
         RdEv.nullRes 0]) =
     stripTypes (readdirLoop 'f'
        [RdEv.entry "x" Dtype.DT_UNKNOWN (SysRes.ok regStat),
         RdEv.nullRes 0])) :=
  ⟨⟨by decide,
    (c7_getDirentType true (SysRes.ok regStat) (SysRes.ok regStat) regStat 0
      "x" Dtype.DT_REG [] 'f').2.2.2.2.1 (by decide)⟩,
   ⟨by decide, by decide,
    (c7_getDirentType true (SysRes.ok dirStat) (SysRes.ok dirStat) dirStat 0
      "x" Dtype.DT_REG [] 'f').2.2.2.2.2.1 (by decide) (by decide)⟩,
   ⟨by decide, by decide,
    (c7_getDirentType true (SysRes.ok zeroStat) (SysRes.ok zeroStat) zeroStat
      0 "x" Dtype.DT_REG [] 'f').2.2.2.2.2.2.1 (by decide) (by decide)⟩,
   by rfl,
   (c7_getDirentType true (SysRes.err EACCES) (SysRes.ok regStat) zeroStat 0
      "x" Dtype.DT_UNKNOWN [RdEv.nullRes 0] 'f').2.2.2.2.2.2.2.2.2.2⟩

/-! ### Content digesting (`md5sumAsBytes`, `unix_jni.cc:918-949`)

The `Md5Digest` accumulator (`src/main/cpp/util/md5.cc`) is not among the
provided sources; it is modelled from the spec as an abstract accumulator:
the chunks fed by `Update` are tracked as the concatenated byte stream and
`Finish` is an abstract finalizer parameter producing the 16-byte
fingerprint. -/

/-- The read buffer size: `jbyte buf[8192]`. -/
def md5BufSize : Nat := 8192

/-- The number of bytes in the fingerprint (`Md5Digest::kDigestLength`). -/
def kDigestLength : Nat := 16

/-- The outcome of one `read(fd, buf, 8192)` call: a non-empty chunk, end of
file (`len == 0`), or a failure with an errno. -/
inductive RdRes where
  | chunk (data : List Nat)
  | eofRes
  | err (e : Nat)
deriving DecidableEq, Repr

/-- A logged file-descriptor operation, with the requested size for reads. -/
inductive IoEvt where
  | openEvt
  | readEvt (size : Nat)
  | closeEvt
deriving DecidableEq, Repr

/-- The read loop of `md5sumAsBytes` (`unix_jni.cc:929-943`): reads until a
zero-length result, feeding each chunk to the accumulator (`acc` is the byte
stream fed so far), retrying a read that failed with `EINTR`, and on any
other read failure closing the descriptor and returning that read errno
(preferring it over any close error).  Also returns the log of descriptor
operations performed. -/
def md5ReadLoop (reads : List RdRes) (acc : List Nat) :
    Option (Except Nat (List Nat) × List IoEvt) :=
  match reads with
  | [] => none
  | RdRes.chunk data :: rest =>
      match md5ReadLoop rest (acc ++ data) with
      | none => none
      | some (r, log) => some (r, IoEvt.readEvt md5BufSize :: log)
  | RdRes.eofRes :: _ => some (.ok acc, [IoEvt.readEvt md5BufSize])
  | RdRes.err e :: rest =>
      if e = EINTR then
        match md5ReadLoop rest acc with
        | none => none
        | some (r, log) => some (r, IoEvt.readEvt md5BufSize :: log)
      else some (.error e, [IoEvt.readEvt md5BufSize, IoEvt.closeEvt])

/-- Embedding of `md5sumAsBytes` (`unix_jni.cc:918-949`): open read-only
retrying on `EINTR`; run the read loop; then close, where a close failure
other than `EINTR` is a hard failure, and only after a clean read-to-EOF and
clean close is the accumulator finalized into the fingerprint. -/
def md5sumAsBytes (finish : List Nat → List Nat)
    (openCalls : List (SysRes Unit)) (reads : List RdRes)
    (closeRes : SysRes Unit) : Option (Except Nat (List Nat) × List IoEvt) :=
  match firstNonEintr openCalls with
  | none => none
  | some (SysRes.err e) => some (.error e, [IoEvt.openEvt])
  | some (SysRes.ok _) =>
      match md5ReadLoop reads [] with
      | none => none
      | some (.error e, log) => some (.error e, IoEvt.openEvt :: log)
      | some (.ok data, log) =>
          match closeRes with
          | SysRes.err e =>
              if e = EINTR then
                some (.ok (finish data),
                      IoEvt.openEvt :: log ++ [IoEvt.closeEvt])
              else
                some (.error e, IoEvt.openEvt :: log ++ [IoEvt.closeEvt])
          | SysRes.ok _ =>
              some (.ok (finish data),
                    IoEvt.openEvt :: log ++ [IoEvt.closeEvt])

theorem md5ReadLoop_readsize (reads : List RdRes) :
    ∀ (acc : List Nat) (r : Except Nat (List Nat)) (log : List IoEvt),
    md5ReadLoop reads acc = some (r, log) →
    ∀ sz : Nat, IoEvt.readEvt sz ∈ log → sz = md5BufSize := by
  induction reads with
  | nil =>
      intro acc r log h
      simp [md5ReadLoop] at h
  | cons rr rest ih =>
      intro acc r log h sz hmem
      match rr with
      | RdRes.chunk data =>
          cases hrec : md5ReadLoop rest (acc ++ data) with
          | none => simp [md5ReadLoop, hrec] at h
          | some p =>
              obtain ⟨r2, log2⟩ := p
              simp only [md5ReadLoop, hrec, Option.some.injEq,
                Prod.mk.injEq] at h
              rw [← h.2] at hmem
              rcases List.mem_cons.mp hmem with hc | hc
              · simp at hc
                exact hc
              · exact ih (acc ++ data) r2 log2 hrec sz hc
      | RdRes.eofRes =>
          simp only [md5ReadLoop, Option.some.injEq, Prod.mk.injEq] at h
          rw [← h.2] at hmem
          simp at hmem
          exact hmem
      | RdRes.err e =>
          by_cases he : e = EINTR
          · subst he
            cases hrec : md5ReadLoop rest acc with
            | none => simp [md5ReadLoop, hrec] at h
            | some p =>
                obtain ⟨r2, log2⟩ := p
                simp [md5ReadLoop, hrec] at h
                rw [← h.2] at hmem
                rcases List.mem_cons.mp hmem with hc | hc
                · simp at hc
                  exact hc
                · exact ih acc r2 log2 hrec sz hc
          · simp only [md5ReadLoop, if_neg he, Option.some.injEq,
              Prod.mk.injEq] at h
            rw [← h.2] at hmem
            simp at hmem
            exact hmem

/-- C8: content digesting.  (1) The open is retried on `EINTR`; (2) every
read requests the fixed 8192-byte buffer; (3) a chunk is appended to the
accumulated stream and reading continues; (4) a read failing with `EINTR` is
retried without feeding anything; (5) any other read error fails immediately
(the descriptor is closed on that path); (6) that read errno is preserved as
the operation's error for every close outcome; (7) after a clean
read-to-EOF, a non-`EINTR` close failure is a hard failure; (8) only after a
clean read-to-EOF and a clean (or `EINTR`) close is the accumulator
finalized, and the fingerprint is `finish` of exactly the concatenated
chunks, of the fixed 16-byte length whenever `finish` produces
`kDigestLength` bytes. -/
theorem c8_md5sum (finish : List Nat → List Nat)
    (openCalls : List (SysRes Unit)) (reads rest : List RdRes)
    (closeRes : SysRes Unit) (data acc : List Nat) (e : Nat)
    (log : List IoEvt) :
    (md5sumAsBytes finish (SysRes.err EINTR :: openCalls) reads closeRes =
      md5sumAsBytes finish openCalls reads closeRes) ∧
    (md5ReadLoop reads acc = some (.ok data, log) →
      ∀ sz : Nat, IoEvt.readEvt sz ∈ log → sz = md5BufSize) ∧
    (md5ReadLoop (RdRes.chunk data :: rest) acc =
      (md5ReadLoop rest (acc ++ data)).map
        (fun p => (p.1, IoEvt.readEvt md5BufSize :: p.2))) ∧
    (md5ReadLoop (RdRes.err EINTR :: rest) acc =
      (md5ReadLoop rest acc).map
        (fun p => (p.1, IoEvt.readEvt md5BufSize :: p.2))) ∧
    (e ≠ EINTR → md5ReadLoop (RdRes.err e :: rest) acc =
      some (.error e, [IoEvt.readEvt md5BufSize, IoEvt.closeEvt])) ∧
    (md5ReadLoop reads [] = some (.error e, log) →
      md5sumAsBytes finish [SysRes.ok ()] reads closeRes =
        some (.error e, IoEvt.openEvt :: log)) ∧
    (e ≠ EINTR → md5ReadLoop reads [] = some (.ok data, log) →
      md5sumAsBytes finish [SysRes.ok ()] reads (SysRes.err e) =
        some (.error e, IoEvt.openEvt :: log ++ [IoEvt.closeEvt])) ∧
    (md5ReadLoop reads [] = some (.ok data, log) →
      md5sumAsBytes finish [SysRes.ok ()] reads (SysRes.ok ()) =
        some (.ok (finish data),
              IoEvt.openEvt :: log ++ [IoEvt.closeEvt])) ∧
    (md5ReadLoop reads [] = some (.ok data, log) →
      md5sumAsBytes finish [SysRes.ok ()] reads (SysRes.err EINTR) =
        some (.ok (finish data),
              IoEvt.openEvt :: log ++ [IoEvt.closeEvt])) ∧
    ((∀ l : List Nat, (finish l).length = kDigestLength) →
      (finish data).length = 16) := by
  refine ⟨?_, ?_, ?_, ?_, ?_, ?_, ?_, ?_, ?_, ?_⟩
  · simp [md5sumAsBytes, firstNonEintr_eintr]
  · intro h
    exact md5ReadLoop_readsize reads acc (.ok data) log h
  · cases hrec : md5ReadLoop rest (acc ++ data) with
    | none => simp [md5ReadLoop, hrec]
    | some p =>
        obtain ⟨r2, log2⟩ := p
        simp [md5ReadLoop, hrec]
  · cases hrec : md5ReadLoop rest acc with
    | none => simp [md5ReadLoop, hrec]
    | some p =>
        obtain ⟨r2, log2⟩ := p
        simp [md5ReadLoop, hrec]
  · intro he
    simp [md5ReadLoop, he]
  · intro h
    simp [md5sumAsBytes, firstNonEintr, h]
  · intro he h
    simp [md5sumAsBytes, firstNonEintr, h, he]
  · intro h
    simp [md5sumAsBytes, firstNonEintr, h]
  · intro h
    simp [md5sumAsBytes, firstNonEintr, h, EINTR]
  · intro hfin
    rw [hfin data]
    rfl

theorem c8_md5sum_witness :
    (md5ReadLoop [RdRes.chunk [1, 2], RdRes.eofRes] [] =
      some (.ok [1, 2],
            [IoEvt.readEvt md5BufSize, IoEvt.readEvt md5BufSize]) ∧
      ∀ sz : Nat,
        IoEvt.readEvt sz ∈
          [IoEvt.readEvt md5BufSize, IoEvt.readEvt md5BufSize] →
        sz = md5BufSize) ∧
    (EACCES ≠ EINTR ∧
      md5ReadLoop [RdRes.err EACCES] [] =
        some (.error EACCES,
              [IoEvt.readEvt md5BufSize, IoEvt.closeEvt])) ∧
    (md5sumAsBytes (fun l => List.replicate 16 l.length) [SysRes.ok ()]
        [RdRes.chunk [1, 2], RdRes.eofRes] (SysRes.ok ()) =
      some (.ok (List.replicate 16 2),
            [IoEvt.openEvt, IoEvt.readEvt md5BufSize,
             IoEvt.readEvt md5BufSize, IoEvt.closeEvt])) ∧
    (EBADF ≠ EINTR ∧
      md5sumAsBytes (fun l => List.replicate 16 l.length) [SysRes.ok ()]
        [RdRes.eofRes] (SysRes.err EBADF) =
      some (.error EBADF,
            [IoEvt.openEvt, IoEvt.readEvt md5BufSize, IoEvt.closeEvt])) ∧
    ((∀ l : List Nat,
        (List.replicate 16 l.length).length = kDigestLength) ∧
      (List.replicate 16 ([] : List Nat).length).length = 16) :=
  ⟨⟨by rfl,
    (c8_md5sum (fun l => List.replicate 16 l.length) []
      [RdRes.chunk [1, 2], RdRes.eofRes] [] (SysRes.ok ()) [1, 2] []
      0 [IoEvt.readEvt md5BufSize, IoEvt.readEvt md5BufSize]).2.1
      (by rfl)⟩,
   ⟨by decide,
    (c8_md5sum (fun l => List.replicate 16 l.length) [] [] [] (SysRes.ok ())
      [] [] EACCES []).2.2.2.2.1 (by decide)⟩,
   (c8_md5sum (fun l => List.replicate 16 l.length) []
      [RdRes.chunk [1, 2], RdRes.eofRes] [] (SysRes.ok ()) [1, 2] []
      0 [IoEvt.readEvt md5BufSize, IoEvt.readEvt md5BufSize]).2.2.2.2.2.2.2.1
     (by rfl),
   ⟨by decide,
    (c8_md5sum (fun l => List.replicate 16 l.length) [] [RdRes.eofRes] []
      (SysRes.err EBADF) [] [] EBADF
      [IoEvt.readEvt md5BufSize]).2.2.2.2.2.2.1 (by decide) (by rfl)⟩,
   ⟨fun l => by simp [kDigestLength],
    (c8_md5sum (fun l => List.replicate 16 l.length) [] [] []
      (SysRes.ok ()) [] [] 0 []).2.2.2.2.2.2.2.2.2
      (fun l => by simp [kDigestLength])⟩⟩

/-! ### utime (`unix_jni.cc:494-517`) -/

/-- `UTIME_OMIT` (`(1 << 30) - 2`). -/
def UTIME_OMIT : Int := (1 <<< 30) - 2

/-- `UTIME_NOW` (`(1 << 30) - 1`). -/
def UTIME_NOW : Int := (1 <<< 30) - 1

structure Timespec where
  tv_sec : Int
  tv_nsec : Int
deriving DecidableEq, Repr

/-- The `struct timespec spec[2]` built by the nanosecond-precision branch
(`unix_jni.cc:502`): index 0 (access time) = `{0, UTIME_OMIT}`, index 1
(modification time) = `{modtime, now ? UTIME_NOW : 0}`. -/
def utimensatArgs (now : Bool) (modtime : Int) : Timespec × Timespec :=
  (⟨0, UTIME_OMIT⟩, ⟨modtime, if now then UTIME_NOW else 0⟩)

structure Utimbuf where
  actime : Int
  modtime : Int
deriving DecidableEq, Repr

/-- The `struct utimbuf` argument built by the legacy fallback branch
(`unix_jni.cc:507-508`): `{modtime, modtime}`, or the NULL pointer when
`now` is requested. -/
def utimeLegacyArgs (now : Bool) (modtime : Int) : Option Utimbuf :=
  if now then none else some ⟨modtime, modtime⟩

/-- Modelled from POSIX: the effect of `utimensat` on one timestamp (seconds
view), given the current clock and the old value: `UTIME_OMIT` leaves it
unchanged, `UTIME_NOW` sets the current time, otherwise `tv_sec` is stored. -/
def applyTimespec (cur old : Int) (t : Timespec) : Int :=
  if t.tv_nsec = UTIME_OMIT then old
  else if t.tv_nsec = UTIME_NOW then cur
  else t.tv_sec

/-- The (access, modification) timestamps after the nanosecond-precision
branch runs on a path whose current timestamps are `(atime, mtime)`. -/
def utimensatEffect (now : Bool) (modtime cur atime mtime : Int) :
    Int × Int :=
  (applyTimespec cur atime (utimensatArgs now modtime).1,
   applyTimespec cur mtime (utimensatArgs now modtime).2)

/-- Modelled from POSIX: the effect of legacy `utime` on the (access,
modification) timestamps: a NULL buffer sets both to the current time,
otherwise both stored fields are applied. -/
def utimeLegacyEffect (now : Bool) (modtime cur atime mtime : Int) :
    Int × Int :=
  match utimeLegacyArgs now modtime with
  | none => (cur, cur)
  | some b => (b.actime, b.modtime)

/-- C9 counterexample: under the legacy fallback branch, `utime("p", false,
5)` on a path whose access time is 100 sets the access time to 5 — the
access timestamp does not stay unchanged, because the fallback passes
`{modtime, modtime}` and legacy `utime` has no way to omit the access time. -/
theorem c9_counterexample :
    utimeLegacyArgs false 5 = some ⟨5, 5⟩ ∧
    (utimeLegacyEffect false 5 0 100 200).1 = 5 ∧
    (5 : Int) ≠ 100 := by
  refine ⟨rfl, rfl, by decide⟩

/-- C9 (amended): when the nanosecond-precision syscall (`utimensat`) is
available, the access time is passed as `UTIME_OMIT` and left unchanged
while the modification time is set (to the clock when `now`, else to
`modtime`); the coarser legacy fallback cannot omit the access time and sets
both timestamps — both to `modtime`, or both to the current time when
`now`. -/
theorem c9_utime_amended (now : Bool) (modtime cur atime mtime : Int) :
    ((utimensatArgs now modtime).1.tv_nsec = UTIME_OMIT) ∧
    ((utimensatEffect now modtime cur atime mtime).1 = atime) ∧
    ((utimensatEffect now modtime cur atime mtime).2 =
      if now then cur else modtime) ∧
    (utimeLegacyEffect now modtime cur atime mtime =
      if now then (cur, cur) else (modtime, modtime)) := by
  refine ⟨rfl, ?_, ?_, ?_⟩
  · simp [utimensatEffect, utimensatArgs, applyTimespec]
  · cases now with
    | true =>
        simp [utimensatEffect, utimensatArgs, applyTimespec, UTIME_OMIT,
          UTIME_NOW]
    | false =>
        simp [utimensatEffect, utimensatArgs, applyTimespec, UTIME_OMIT,
          UTIME_NOW]
  · cases now with
    | true => simp [utimeLegacyEffect, utimeLegacyArgs]
    | false => simp [utimeLegacyEffect, utimeLegacyArgs]

/-! ### readlink (`unix_jni.cc:268-282`) -/

/-- `PATH_MAX` on Linux. -/
def PATH_MAX : Nat := 4096

/-- The NUL character. -/
def NUL : Char := Char.ofNat 0

/-- Modelled from POSIX: `readlink` places at most `bufsize` bytes of the
link target in the buffer, without NUL-termination, returning the byte
count; in particular a longer target is silently truncated to `bufsize`. -/
def readlinkSys (content : List Char) (bufsize : Nat) : List Char :=
  content.take bufsize

/-- Embedding of `..._NativePosixFiles_readlink` (`unix_jni.cc:268-282`):
`char target[PATH_MAX] = ""` zero-fills the buffer; on syscall failure the
errno is posted; on success the Java string is built from the buffer with
`strlen` semantics, i.e. up to the first NUL byte. -/
def readlinkOp (path : String) (res : SysRes (List Char)) :
    Except Exn (List Char) :=
  match res with
  | SysRes.err e => .error (postFileException e path)
  | SysRes.ok written =>
      .ok ((written ++
            List.replicate (PATH_MAX - written.length) NUL).takeWhile
            (fun c => c != NUL))

theorem takeWhile_all {α : Type} (p : α → Bool) :
    ∀ l : List α, (∀ c ∈ l, p c = true) → l.takeWhile p = l := by
  intro l
  induction l with
  | nil => intro _; rfl
  | cons a t ih =>
      intro h
      rw [List.takeWhile_cons, if_pos (h a (List.mem_cons_self a t))]
      rw [ih fun c hc => h c (List.mem_cons_of_mem a hc)]

/-- C10: readlink uses a fixed `PATH_MAX`-byte buffer, so a symlink whose
target is longer than `PATH_MAX` yields a successful result holding the
target silently truncated to `PATH_MAX` bytes — a result different from the
real target — with no error reported and no indication of truncation. -/
theorem c10_readlink_truncation (path : String) (content : List Char) :
    PATH_MAX < content.length → (∀ c ∈ content, c ≠ NUL) →
    readlinkOp path (SysRes.ok (readlinkSys content PATH_MAX)) =
      .ok (content.take PATH_MAX) ∧
    content.take PATH_MAX ≠ content := by
  intro hlen hnul
  have hlen2 : (content.take PATH_MAX).length = PATH_MAX := by
    simp [List.length_take]
    omega
  constructor
  · simp only [readlinkOp, readlinkSys, hlen2, Nat.sub_self,
      List.replicate_zero, List.append_nil, Except.ok.injEq]
    refine takeWhile_all _ _ ?_
    intro c hc
    have : c ∈ content := List.take_subset PATH_MAX content hc
    simp [hnul c this]
  · intro heq
    have := congrArg List.length heq
    rw [hlen2] at this
    omega

theorem c10_readlink_witness :
    PATH_MAX < (List.replicate (PATH_MAX + 1) 'a').length ∧
    (∀ c ∈ List.replicate (PATH_MAX + 1) 'a', c ≠ NUL) ∧
    (readlinkOp "p"
        (SysRes.ok (readlinkSys (List.replicate (PATH_MAX + 1) 'a')
          PATH_MAX)) =
      .ok ((List.replicate (PATH_MAX + 1) 'a').take PATH_MAX) ∧
     (List.replicate (PATH_MAX + 1) 'a').take PATH_MAX ≠
       List.replicate (PATH_MAX + 1) 'a') :=
  ⟨by simp,
   fun c hc => by
     rw [List.eq_of_mem_replicate hc]
     decide,
   c10_readlink_truncation "p" (List.replicate (PATH_MAX + 1) 'a')
     (by simp)
     (fun c hc => by
       rw [List.eq_of_mem_replicate hc]
       decide)⟩

end UnixJni
